import Mathlib

/-!
Verification development for the `llm-probe` evaluation/monitoring core.

The Python source under `src/py-test/src/` is shallowly embedded:

* Python `float` values are modelled as exact rationals (`ℚ`); the one
  place the code takes a real square root (`math.sqrt` in cosine
  similarity and in the standard deviation) is modelled with `Real.sqrt`
  over `ℝ`, so those definitions are `noncomputable`.
* Python strings are modelled as `String`/`List Char`; the regex classes
  `\w`, `\s` and `str.lower()` are modelled on their ASCII fragment
  (`isWordChar`, `isSpaceChar`, `Char.toLower`), which is the fragment
  all claims and tests exercise.
* Python `dict` is modelled either as a total function with default
  (n-gram count maps, where the source's `key in d and d[key] > 0` test
  is equivalent to `d k > 0`) or as an association list with unique keys
  (the collector's in-flight map).
* Fallible code (`raise ValueError`) is modelled with `Except String`.
* Wall-clock reads (`time.time()`) become explicit parameters.
* Human-readable message strings that interpolate fixed-decimal numbers
  (`f"...{x:.2f}..."`) are modelled structurally: either as an inductive
  carrying the interpolated data (`FailureMsg`) or as a fixed label,
  since no claim depends on decimal rendering.
-/

namespace LLMProbe

/-! ## src/metrics/text_similarity.py — tokenizer -/

/-- ASCII fragment of Python's regex class `\w`: alphanumeric or underscore. -/
def isWordChar (c : Char) : Bool :=
  c.isAlphanum || c == '_'

/-- ASCII fragment of Python's regex class `\s` / `str.split()` whitespace. -/
def isSpaceChar (c : Char) : Bool :=
  c == ' ' || c == '\t' || c == '\n' || c == '\r' || c == '\x0b' || c == '\x0c'

/-- `re.sub(r'[^\w\s]', ' ', text)`: replace every character that is neither
a word character nor whitespace by a space. -/
def stripPunct (cs : List Char) : List Char :=
  cs.map fun c => if isWordChar c || isSpaceChar c then c else ' '

/-- Python `str.split()` with no argument: split on runs of whitespace,
dropping empty pieces (leading/trailing whitespace produces nothing). -/
def pySplit : List Char → List Char → List (List Char)
  | [], acc => if acc = [] then [] else [acc.reverse]
  | c :: rest, acc =>
    if isSpaceChar c then
      if acc = [] then pySplit rest [] else acc.reverse :: pySplit rest []
    else pySplit rest (c :: acc)

/-- `_tokenize` (text_similarity.py:505-532): lower-case, replace
non-word/non-space characters by spaces, split on whitespace and filter
out empty strings.  Tokens are modelled as `List Char`. -/
def tokenize (text : String) : List (List Char) :=
  let lowered := text.toList.map Char.toLower
  let cleaned := stripPunct lowered
  (pySplit cleaned []).filter fun w => !w.isEmpty

/-! ## src/metrics/text_similarity.py — set-based metrics -/

/-- `jaccard_similarity` (text_similarity.py:106-159):
|intersection| / |union| of the token sets, `0.0` when the union is empty. -/
def jaccard_similarity (text1 text2 : String) : ℚ :=
  let words1 := (tokenize text1).toFinset
  let words2 := (tokenize text2).toFinset
  let intersection := words1 ∩ words2
  let union := words1 ∪ words2
  if union.card = 0 then 0
  else (intersection.card : ℚ) / (union.card : ℚ)

/-- `overlap_coefficient` (text_similarity.py:162-219):
|intersection| / min(|set1|, |set2|), `0.0` when the smaller set is empty. -/
def overlap_coefficient (text1 text2 : String) : ℚ :=
  let words1 := (tokenize text1).toFinset
  let words2 := (tokenize text2).toFinset
  let intersection := words1 ∩ words2
  let min_size := min words1.card words2.card
  if min_size = 0 then 0
  else (intersection.card : ℚ) / (min_size : ℚ)

/-- `cosine_similarity` (text_similarity.py:35-103): term-frequency
vectors over the joint vocabulary, dot product over magnitude product.
`math.sqrt` is modelled by `Real.sqrt`, hence `ℝ`-valued. -/
noncomputable def cosine_similarity (text1 text2 : String) : ℝ :=
  let words1 := tokenize text1
  let words2 := tokenize text2
  let vocab := (words1 ++ words2).dedup
  let vec1 := vocab.map fun w => (words1.count w : ℤ)
  let vec2 := vocab.map fun w => (words2.count w : ℤ)
  let dot_product := ((vec1.zip vec2).map fun p => p.1 * p.2).sum
  let mag1 := Real.sqrt ((vec1.map fun v => v * v).sum : ℤ)
  let mag2 := Real.sqrt ((vec2.map fun v => v * v).sum : ℤ)
  if mag1 = 0 ∨ mag2 = 0 then 0
  else (dot_product : ℝ) / (mag1 * mag2)

/-- `composite_similarity` (text_similarity.py:222-268):
`0.5·cosine + 0.3·jaccard + 0.2·overlap`. -/
noncomputable def composite_similarity (text1 text2 : String) : ℝ :=
  let cosine := cosine_similarity text1 text2
  let jaccard := jaccard_similarity text1 text2
  let overlap := overlap_coefficient text1 text2
  (1/2 : ℝ) * cosine + (3/10 : ℝ) * (jaccard : ℝ) + (1/5 : ℝ) * (overlap : ℝ)

/-! ## src/metrics/text_similarity.py — n-gram precision and BLEU -/

/-- `_get_ngrams` (text_similarity.py:535-555): the overlapping windows
of size `n`.  `List.range (len + 1 - n)` matches Python's
`range(len(tokens) - n + 1)` for every `n : ℕ` (an empty range when
`n > len`). -/
def get_ngrams (tokens : List (List Char)) (n : ℕ) : List (List (List Char)) :=
  (List.range (tokens.length + 1 - n)).map fun i => (tokens.drop i).take n

/-- `' '.join(ngram)`: the dictionary key used for an n-gram. -/
def joinKey : List (List Char) → List Char
  | [] => []
  | [t] => t
  | t :: rest => t ++ ' ' :: joinKey rest

/-- `_count_ngrams` (text_similarity.py:558-578): frequency map keyed by
the space-joined n-gram, modelled as a total function with default 0
(`counts.get(key, 0)`). -/
def count_ngrams (ngrams : List (List (List Char))) : List Char → ℕ :=
  ngrams.foldl (fun counts g => fun k => if k = joinKey g then counts k + 1 else counts k)
    (fun _ => 0)

/-- The matching loop of `ngram_precision` (text_similarity.py:444-448):
for each candidate n-gram, if the reference-count map still holds a
positive count for its key, count one match and decrement ("use up this
match").  `key in ref_counts and ref_counts[key] > 0` is equivalent to
`counts key > 0` in the default-0 map model. -/
def matchCount : List (List (List Char)) → (List Char → ℕ) → ℕ
  | [], _ => 0
  | g :: rest, counts =>
    let key := joinKey g
    if counts key > 0 then
      matchCount rest (fun k => if k = key then counts k - 1 else counts k) + 1
    else
      matchCount rest counts

/-- `ngram_precision` (text_similarity.py:395-450): clipped matches over
total candidate n-grams, `0.0` when the candidate yields none. -/
def ngram_precision (reference candidate : String) (n : ℕ) : ℚ :=
  let ref_ngrams := get_ngrams (tokenize reference) n
  let cand_ngrams := get_ngrams (tokenize candidate) n
  if cand_ngrams.length = 0 then 0
  else (matchCount cand_ngrams (count_ngrams ref_ngrams) : ℚ) / (cand_ngrams.length : ℚ)

/-- `bleu_score` (text_similarity.py:453-500): arithmetic mean of unigram
and bigram precision. -/
def bleu_score (reference candidate : String) : ℚ :=
  let p1 := ngram_precision reference candidate 1
  let p2 := ngram_precision reference candidate 2
  (p1 + p2) / 2

/-! ## src/metrics/text_similarity.py — required terms and length -/

/-- Whether the character at index `i` is a word character (out-of-range
counts as non-word, as at the ends of a string for regex `\b`). -/
def wordAt (cs : List Char) (i : ℕ) : Bool :=
  match cs.get? i with
  | some c => isWordChar c
  | none => false

/-- Regex `\b` at position `i`: exactly one of the adjacent characters is
a word character. -/
def boundaryAt (cs : List Char) (i : ℕ) : Bool :=
  (if i = 0 then false else wordAt cs (i - 1)) != wordAt cs i

/-- `re.search(r'\b' + re.escape(term) + r'\b', text)`: there is a
position where the literal term matches with a word boundary on each
side. -/
def hasWordBoundaryMatch (text term : List Char) : Bool :=
  (List.range (text.length + 1)).any fun i =>
    decide ((text.drop i).take term.length = term)
      && boundaryAt text i && boundaryAt text (i + term.length)

/-- Result dictionary of `contains_required_terms`. -/
structure TermsResult where
  passed : Bool
  coverage : ℚ
  missing : List String
deriving DecidableEq, Repr

/-- `contains_required_terms` (text_similarity.py:271-342): empty
requirement list auto-passes; otherwise case-insensitive whole-word
matching, with coverage fraction and the missing terms in input order. -/
def contains_required_terms (text : String) (required_terms : List String) : TermsResult :=
  if required_terms.length = 0 then
    { passed := true, coverage := 1, missing := [] }
  else
    let text_lower := text.toList.map Char.toLower
    let found := required_terms.filter fun term =>
      hasWordBoundaryMatch text_lower (term.toList.map Char.toLower)
    let missing := required_terms.filter fun term =>
      !hasWordBoundaryMatch text_lower (term.toList.map Char.toLower)
    { passed := found.length = required_terms.length
      coverage := (found.length : ℚ) / (required_terms.length : ℚ)
      missing := missing }

/-- Result dictionary of `validate_length`. -/
structure LengthCheck where
  passed : Bool
  word_count : ℕ
deriving DecidableEq, Repr

/-- `validate_length` (text_similarity.py:345-392): raises on negative or
inverted bounds, otherwise reports the token count and the inclusive
range check. -/
def validate_length (text : String) (min_words max_words : ℤ) : Except String LengthCheck :=
  if min_words < 0 ∨ max_words < 0 then
    .error "Word count limits must be non-negative"
  else if min_words > max_words then
    .error "min_words cannot be greater than max_words"
  else
    let word_count := (tokenize text).length
    .ok { passed := decide (min_words ≤ (word_count : ℤ) ∧ (word_count : ℤ) ≤ max_words)
          word_count := word_count }

/-! ## src/evaluators/summary_evaluator.py -/

/-- Quality thresholds of a golden test case
(`test_case.thresholds[...]`, the four keys `evaluate` reads). -/
structure Thresholds where
  min_semantic_similarity : ℚ
  min_length_words : ℤ
  max_length_words : ℤ
  required_terms : List String
deriving DecidableEq

/-- `GoldenTestCase` (utils/golden_dataset.py:42-56); the free-form
`metadata` dictionary is not read by the evaluator and is omitted. -/
structure GoldenTestCase where
  id : String
  category : String
  difficulty : String
  transcript : String
  golden_summary : String
  thresholds : Thresholds
deriving DecidableEq

/-- One failure message appended by `evaluate`
(summary_evaluator.py:117-149).  Each message interpolates the metric
name, the actual value and the violated bound; the fixed-decimal string
rendering is abstracted into a constructor carrying that data. -/
inductive FailureMsg where
  | similarityBelow (similarity : ℝ) (threshold : ℚ)
  | lengthOutside (word_count : ℕ) (min_words max_words : ℤ)
  | missingTerms (missing : List String)

/-- `EvaluationResult` (summary_evaluator.py:42-63). -/
structure EvaluationResult where
  passed : Bool
  similarity : ℝ
  bleu : ℚ
  length_check : LengthCheck
  required_terms : TermsResult
  failures : List FailureMsg

/-- `SummaryEvaluator.evaluate` (summary_evaluator.py:73-160): composite
similarity against its threshold, BLEU (informational), length bounds,
required terms; each failing sub-check appends one message; `passed` is
`len(failures) == 0`.  A `ValueError` raised inside `validate_length`
propagates. -/
noncomputable def evaluate (summary : String) (test_case : GoldenTestCase) :
    Except String EvaluationResult :=
  let failures0 : List FailureMsg := []
  let similarity := composite_similarity summary test_case.golden_summary
  let failures1 :=
    if similarity < (test_case.thresholds.min_semantic_similarity : ℝ) then
      failures0 ++ [.similarityBelow similarity test_case.thresholds.min_semantic_similarity]
    else failures0
  let bleu := bleu_score summary test_case.golden_summary
  match validate_length summary test_case.thresholds.min_length_words
      test_case.thresholds.max_length_words with
  | .error e => .error e
  | .ok length_check =>
    let failures2 :=
      if length_check.passed = false then
        failures1 ++ [.lengthOutside length_check.word_count
          test_case.thresholds.min_length_words test_case.thresholds.max_length_words]
      else failures1
    let required_terms := contains_required_terms summary test_case.thresholds.required_terms
    let failures3 :=
      if required_terms.passed = false then
        failures2 ++ [.missingTerms required_terms.missing]
      else failures2
    .ok { passed := failures3.length = 0
          similarity := similarity
          bleu := bleu
          length_check := length_check
          required_terms := required_terms
          failures := failures3 }

/-! ## src/performance/performance_collector.py -/

/-- `TokenUsage` (performance_collector.py:66-71). -/
structure TokenUsage where
  input_tokens : ℤ
  output_tokens : ℤ
  model : String
deriving DecidableEq

/-- `PerformanceMetric` (performance_collector.py:74-87).  Times and
latencies are milliseconds modelled as `ℚ`. -/
structure PerformanceMetric where
  request_id : String
  start_time : ℚ
  end_time : Option ℚ := none
  latency : Option ℚ := none
  input_tokens : Option ℤ := none
  output_tokens : Option ℤ := none
  total_tokens : Option ℤ := none
  model : Option String := none
  cost : Option ℚ := none
  success : Bool := true
  error : Option String := none
deriving DecidableEq

/-- `PerformanceReport` (performance_collector.py:90-125).  The
`datetime.fromtimestamp(t / 1000)` conversions are modelled as the
underlying epoch seconds.  `std_deviation` is a real because the source
takes `math.sqrt`. -/
structure PerformanceReport where
  total_requests : ℕ
  successful_requests : ℕ
  failed_requests : ℕ
  error_rate : ℚ
  mean_latency : ℚ
  median_latency : ℚ
  p95_latency : ℚ
  p99_latency : ℚ
  min_latency : ℚ
  max_latency : ℚ
  std_deviation : ℝ
  total_input_tokens : ℤ
  total_output_tokens : ℤ
  total_tokens : ℤ
  mean_input_tokens : ℚ
  mean_output_tokens : ℚ
  total_cost : ℚ
  mean_cost : ℚ
  duration : ℚ
  requests_per_second : ℚ
  tokens_per_second : ℚ
  start_time : ℚ
  end_time : ℚ

/-- `MODEL_PRICING` (performance_collector.py:50-63): per-model
(input-rate, output-rate) in dollars per 1M tokens. -/
def MODEL_PRICING : List (String × ℚ × ℚ) :=
  [ ("llama3.1:8b", 0, 0), ("llama3.2:latest", 0, 0), ("mistral:7b", 0, 0),
    ("gpt-4", 30, 60), ("gpt-4-turbo", 10, 30), ("gpt-3.5-turbo", 1/2, 3/2),
    ("claude-3-opus", 15, 75), ("claude-3-sonnet", 3, 15), ("claude-3-haiku", 1/4, 5/4) ]

/-- `_calculate_cost` (performance_collector.py:227-247): tokens divided
by one million times the per-model rate; unknown models are free. -/
def calculate_cost (usage : TokenUsage) : ℚ :=
  match (MODEL_PRICING.find? fun p => p.1 == usage.model).map Prod.snd with
  | none => 0
  | some pricing =>
    (usage.input_tokens : ℚ) / 1000000 * pricing.1
      + (usage.output_tokens : ℚ) / 1000000 * pricing.2

/-- Collector state (performance_collector.py:164-167): finalized
metrics, the in-flight map (a `dict`, modelled as an association list
with unique keys) and the request counter. -/
structure CollectorState where
  metrics : List PerformanceMetric
  active : List (String × PerformanceMetric)
  request_counter : ℕ
deriving DecidableEq

/-- The empty collector (`PerformanceCollector.__init__`). -/
def emptyCollector : CollectorState :=
  { metrics := [], active := [], request_counter := 0 }

/-- `start_request` (performance_collector.py:169-190): allocate
`req_{counter}_{int(now_ms)}`, store a partially filled metric in the
in-flight map, return the new state and the request id.  The wall-clock
read `time.time() * 1000` is the explicit `now_ms` parameter. -/
def start_request (s : CollectorState) (now_ms : ℚ) : CollectorState × String :=
  let counter := s.request_counter + 1
  let request_id := "req_" ++ toString counter ++ "_" ++ toString ⌊now_ms⌋
  let metric : PerformanceMetric :=
    { request_id := request_id, start_time := now_ms, success := true }
  ({ s with request_counter := counter
            active := s.active ++ [(request_id, metric)] }, request_id)

/-- `_end_request` (performance_collector.py:192-225): look up the
in-flight entry (a miss raises `ValueError`), stamp end time and latency,
apply error status (`if error:` is Python truthiness, so an empty string
does not mark failure), apply token usage and cost, append to the
finalized list and delete the in-flight entry. -/
def end_request (s : CollectorState) (request_id : String)
    (usage : Option TokenUsage) (error : Option String) (now_ms : ℚ) :
    Except String CollectorState :=
  match s.active.find? fun p => p.1 == request_id with
  | none => .error ("Request " ++ request_id ++ " not found")
  | some entry =>
    let metric := entry.2
    let metric := { metric with end_time := some now_ms
                                latency := some (now_ms - metric.start_time) }
    let metric :=
      match error with
      | some e => if e = "" then metric else { metric with success := false, error := some e }
      | none => metric
    let metric :=
      match usage with
      | some u =>
        { metric with input_tokens := some u.input_tokens
                      output_tokens := some u.output_tokens
                      total_tokens := some (u.input_tokens + u.output_tokens)
                      model := some u.model
                      cost := some (calculate_cost u) }
      | none => metric
    .ok { s with metrics := s.metrics ++ [metric]
                 active := s.active.filter fun p => !(p.1 == request_id) }

/-- `_mean` (performance_collector.py:482-486). -/
def pcMean (values : List ℚ) : ℚ :=
  if values.length = 0 then 0 else values.sum / (values.length : ℚ)

/-- `_standard_deviation` (performance_collector.py:488-493):
`math.sqrt` of the population variance. -/
noncomputable def standard_deviation (values : List ℚ) (mean : ℚ) : ℝ :=
  if values.length = 0 then 0
  else Real.sqrt (((values.map fun v => (v - mean) * (v - mean)).sum / (values.length : ℚ) : ℚ))

/-- `_percentile` (performance_collector.py:495-501): nearest-rank on a
sorted sample, `index = ceil(p/100 · n) - 1` clamped into `[0, n-1]`. -/
def percentile (sorted_values : List ℚ) (p : ℚ) : ℚ :=
  if sorted_values.length = 0 then 0
  else
    let index : ℤ := ⌈p / 100 * (sorted_values.length : ℚ)⌉ - 1
    let index : ℤ := max 0 (min index ((sorted_values.length : ℤ) - 1))
    sorted_values.getD index.toNat 0

/-- Python `min` over a non-empty list (0 for the empty list, unused). -/
def pyMin (values : List ℚ) : ℚ :=
  match values with
  | [] => 0
  | v :: rest => rest.foldl min v

/-- Python `max` over a non-empty list (0 for the empty list, unused). -/
def pyMax (values : List ℚ) : ℚ :=
  match values with
  | [] => 0
  | v :: rest => rest.foldl max v

/-- `generate_report` (performance_collector.py:303-382): raises on an
empty metric list, and separately when no successful metric carries
latency data; otherwise aggregates latency, token, cost and throughput
statistics.  `latencies.sort()` is modelled by `insertionSort` (any
sorting algorithm; Python's is Timsort). -/
noncomputable def generate_report (metrics : List PerformanceMetric) :
    Except String PerformanceReport :=
  if metrics.length = 0 then .error "No metrics recorded"
  else
    let successful := metrics.filter fun m => m.success
    let failed := metrics.filter fun m => !m.success
    let latencies := List.insertionSort (· ≤ ·) (successful.filterMap fun m => m.latency)
    if latencies.length = 0 then
      .error "No successful requests with latency data to generate report"
    else
      let mean_latency := pcMean latencies
      let std_deviation := standard_deviation latencies mean_latency
      let input_tokens := successful.map fun m => m.input_tokens.getD 0
      let output_tokens := successful.map fun m => m.output_tokens.getD 0
      let costs := successful.map fun m => m.cost.getD 0
      let start_times := metrics.map fun m => m.start_time
      let end_times := metrics.map fun m => (m.end_time.getD m.start_time)
      let min_time := pyMin start_times
      let max_time := pyMax end_times
      let duration_raw := (max_time - min_time) / 1000
      let duration := max duration_raw (1/1000)
      let total_input_tokens := input_tokens.sum
      let total_output_tokens := output_tokens.sum
      let total_tokens := total_input_tokens + total_output_tokens
      let total_cost := costs.sum
      .ok { total_requests := metrics.length
            successful_requests := successful.length
            failed_requests := failed.length
            error_rate := (failed.length : ℚ) / (metrics.length : ℚ)
            mean_latency := mean_latency
            median_latency := percentile latencies 50
            p95_latency := percentile latencies 95
            p99_latency := percentile latencies 99
            min_latency := pyMin latencies
            max_latency := pyMax latencies
            std_deviation := std_deviation
            total_input_tokens := total_input_tokens
            total_output_tokens := total_output_tokens
            total_tokens := total_tokens
            mean_input_tokens := pcMean (input_tokens.map fun t => (Int.cast t : ℚ))
            mean_output_tokens := pcMean (output_tokens.map fun t => (Int.cast t : ℚ))
            total_cost := total_cost
            mean_cost := pcMean costs
            duration := duration
            requests_per_second := (metrics.length : ℚ) / duration
            tokens_per_second := (total_tokens : ℚ) / duration
            start_time := min_time / 1000
            end_time := max_time / 1000 }

/-! ## src/monitoring/metrics_aggregator.py

The aggregator's persistent history file is modelled by passing the
current history list explicitly; `_load_history`/`_save_history` (JSON
I/O) are the identity on that list. -/

/-- `TestRunResult` (metrics_aggregator.py:67-96).  Timestamps are
modelled as `ℚ` (only their order and identity matter). -/
structure TestRunResult where
  timestamp : ℚ
  test_suite : String
  total_tests : ℕ
  passed : ℕ
  failed : ℕ
  skipped : ℕ
  duration : ℚ
  avg_similarity : Option ℚ := none
  avg_bleu_score : Option ℚ := none
  avg_latency : Option ℚ := none
  p95_latency : Option ℚ := none
  p99_latency : Option ℚ := none
  avg_tokens : Option ℚ := none
  total_cost : Option ℚ := none
  security_violations : Option ℕ := none
  avg_risk_score : Option ℚ := none
  model : Option String := none
  version : Option String := none
  notes : Option String := none
deriving DecidableEq

/-- `AggregatedMetrics` (metrics_aggregator.py:100-107); the trend is one
of the literals `"improving"`, `"stable"`, `"degrading"`. -/
structure AggregatedMetrics where
  period : String
  test_runs : ℕ
  avg_pass_rate : ℚ
  avg_similarity : ℚ
  avg_latency : ℚ
  trend : String
deriving DecidableEq

/-- `RegressionAlert` (metrics_aggregator.py:110-119).  The
`message` field's fixed-decimal rendering is abstracted to a label. -/
structure RegressionAlert where
  severity : String
  metric : String
  current : ℚ
  baseline : ℚ
  percent_change : ℚ
  message : String
  timestamp : ℚ
deriving DecidableEq

/-- `AlertThresholds` (metrics_aggregator.py:122-128). -/
structure AlertThresholds where
  similarity_drop : ℚ
  latency_increase : ℚ
  pass_rate_drop : ℚ
  min_test_runs : ℕ
deriving DecidableEq

/-- The default thresholds installed by `MetricsAggregator.__init__`
(metrics_aggregator.py:45-49, 139-144). -/
def defaultThresholds : AlertThresholds :=
  { similarity_drop := 1/10, latency_increase := 1/4, pass_rate_drop := 1/20
    min_test_runs := 3 }

/-- `MetricsAggregator._mean` (metrics_aggregator.py:537-541). -/
def aggMean (values : List ℚ) : ℚ :=
  if values.length = 0 then 0 else values.sum / (values.length : ℚ)

/-- `get_recent_runs` (metrics_aggregator.py:220-231):
`history[-count:] if len(history) >= count else history`.  Python's
`history[-0:]` is the whole list, hence the `count = 0` special case. -/
def get_recent_runs (history : List TestRunResult) (count : ℕ) : List TestRunResult :=
  if history.length ≥ count then
    if count = 0 then history else history.drop (history.length - count)
  else history

/-- `_calculate_trend` (metrics_aggregator.py:280-315): below 5 runs →
`"stable"`; otherwise compare the mean similarity of the chronological
first half (`runs[:mid]`, `mid = len // 2`) with the second half
(`runs[mid:]`); a zero mean on either side (which `_mean` also returns
for a half with no similarity data) → `"stable"`; then `"improving"` /
`"degrading"` beyond a ±0.05 change, else `"stable"`. -/
def calculate_trend (runs : List TestRunResult) : String :=
  if runs.length < 5 then "stable"
  else
    let mid := runs.length / 2
    let first_half := runs.take mid
    let second_half := runs.drop mid
    let first_avg_sim := aggMean (first_half.filterMap fun r => r.avg_similarity)
    let second_avg_sim := aggMean (second_half.filterMap fun r => r.avg_similarity)
    if first_avg_sim = 0 ∨ second_avg_sim = 0 then "stable"
    else
      let change := second_avg_sim - first_avg_sim
      if change > 1/20 then "improving"
      else if change < -(1/20) then "degrading"
      else "stable"

/-- `calculate_baseline` (metrics_aggregator.py:248-278): aggregate the
`runs` most recent history entries; `None` when fewer than
`min_test_runs` are available. -/
def calculate_baseline (thresholds : AlertThresholds) (history : List TestRunResult)
    (runs : ℕ) : Option AggregatedMetrics :=
  let recent_runs := get_recent_runs history runs
  if recent_runs.length < thresholds.min_test_runs then none
  else
    let total_tests := (recent_runs.map fun r => r.total_tests).sum
    let total_passed := (recent_runs.map fun r => r.passed).sum
    let similarities := recent_runs.filterMap fun r => r.avg_similarity
    let latencies := recent_runs.filterMap fun r => r.avg_latency
    some { period := "last_" ++ toString runs ++ "_runs"
           test_runs := recent_runs.length
           avg_pass_rate := if total_tests > 0 then (total_passed : ℚ) / (total_tests : ℚ) else 0
           avg_similarity := aggMean similarities
           avg_latency := aggMean latencies
           trend := calculate_trend recent_runs }

/-- `DEFAULT_BASELINE_RUNS` (metrics_aggregator.py:63). -/
def DEFAULT_BASELINE_RUNS : ℕ := 10

/-- The similarity/latency/pass-rate alert computation of
`check_for_regressions` (metrics_aggregator.py:338-418) given the latest
run and the baseline.  Rational division by zero (Lean's `x / 0 = 0`
convention) can only be hit where Python would raise
`ZeroDivisionError` (a baseline similarity of exactly 0); no claim or
theorem below exercises that region. -/
def regressionAlerts (thresholds : AlertThresholds) (latest : TestRunResult)
    (baseline : AggregatedMetrics) : List RegressionAlert :=
  let simAlerts :=
    match latest.avg_similarity with
    | none => []
    | some sim =>
      let sim_change := (sim - baseline.avg_similarity) / baseline.avg_similarity
      if sim_change < -thresholds.similarity_drop then
        [ { severity := if sim_change ≤ -(1/5) then "critical" else "warning"
            metric := "similarity", current := sim, baseline := baseline.avg_similarity
            percent_change := sim_change * 100, message := "Similarity dropped"
            timestamp := latest.timestamp } ]
      else []
  let latencyAlerts :=
    match latest.avg_latency with
    | none => []
    | some lat =>
      if baseline.avg_latency > 0 then
        let latency_change := (lat - baseline.avg_latency) / baseline.avg_latency
        if latency_change > thresholds.latency_increase then
          [ { severity := if latency_change ≥ 1/2 then "critical" else "warning"
              metric := "latency", current := lat, baseline := baseline.avg_latency
              percent_change := latency_change * 100, message := "Latency increased"
              timestamp := latest.timestamp } ]
        else []
      else []
  let current_pass_rate :=
    if latest.total_tests > 0 then (latest.passed : ℚ) / (latest.total_tests : ℚ) else 0
  let pass_rate_change := current_pass_rate - baseline.avg_pass_rate
  let passRateAlerts :=
    if pass_rate_change < -thresholds.pass_rate_drop then
      [ { severity := if pass_rate_change < -(1/10) then "critical" else "warning"
          metric := "pass_rate", current := current_pass_rate
          baseline := baseline.avg_pass_rate
          percent_change := if baseline.avg_pass_rate > 0
            then pass_rate_change / baseline.avg_pass_rate * 100 else 0
          message := "Pass rate dropped", timestamp := latest.timestamp } ]
    else []
  simAlerts ++ latencyAlerts ++ passRateAlerts

/-- `check_for_regressions` (metrics_aggregator.py:317-418): empty unless
the history holds at least `min_test_runs + 1` runs; then the latest run
(`history[-1]`) is compared against `calculate_baseline(10)` computed
over the same full history. -/
def check_for_regressions (thresholds : AlertThresholds) (history : List TestRunResult) :
    List RegressionAlert :=
  if history.length < thresholds.min_test_runs + 1 then []
  else
    match history.getLast? with
    | none => []
    | some latest =>
      match calculate_baseline thresholds history DEFAULT_BASELINE_RUNS with
      | none => []
      | some baseline => regressionAlerts thresholds latest baseline

/-! ## Claim-side specification functions

These definitions follow the wording of spec claims (not the source);
each is compared against the corresponding source-derived definition
above. -/

/-- Claim C1's reading of `check_for_regressions`: the baseline is
computed over the prior default window — the runs preceding (not
including) the latest run. -/
def check_for_regressions_claim (thresholds : AlertThresholds)
    (history : List TestRunResult) : List RegressionAlert :=
  if history.length < thresholds.min_test_runs + 1 then []
  else
    match history.getLast? with
    | none => []
    | some latest =>
      match calculate_baseline thresholds history.dropLast DEFAULT_BASELINE_RUNS with
      | none => []
      | some baseline => regressionAlerts thresholds latest baseline

/-- Claim C8's reading of trend classification: `"stable"` below 5 runs
or when either half lacks similarity data entirely; otherwise compare
the two halves' mean similarities against the ±0.05 thresholds. -/
def calculate_trend_claim (runs : List TestRunResult) : String :=
  if runs.length < 5 then "stable"
  else
    let mid := runs.length / 2
    let first_sims := (runs.take mid).filterMap fun r => r.avg_similarity
    let second_sims := (runs.drop mid).filterMap fun r => r.avg_similarity
    if first_sims = [] ∨ second_sims = [] then "stable"
    else
      let change := second_sims.sum / (second_sims.length : ℚ)
        - first_sims.sum / (first_sims.length : ℚ)
      if change > 1/20 then "improving"
      else if change < -(1/20) then "degrading"
      else "stable"

/-- Amended claim C8, written from the amended sentence: the window is
split chronologically at the midpoint (`splitAt`, second half receiving
the larger part on odd counts) and a zero mean similarity on either
side — in particular a half with no similarity data at all — defaults
to `"stable"`. -/
def calculate_trend_spec (runs : List TestRunResult) : String :=
  if runs.length < 5 then "stable"
  else
    let halves := runs.splitAt (runs.length / 2)
    let first_mean := aggMean (halves.1.filterMap fun r => r.avg_similarity)
    let second_mean := aggMean (halves.2.filterMap fun r => r.avg_similarity)
    if first_mean = 0 ∨ second_mean = 0 then "stable"
    else if second_mean - first_mean > 1/20 then "improving"
    else if second_mean - first_mean < -(1/20) then "degrading"
    else "stable"

/-- A minimal test run used in concrete counterexamples and witnesses:
one test, passing, with the given average similarity. -/
def simRun (sim : ℚ) : TestRunResult :=
  { timestamp := 0, test_suite := "suite", total_tests := 1, passed := 1, failed := 0,
    skipped := 0, duration := 0, avg_similarity := some sim }

/-- A finalized failed metric with no latency data (concrete instance). -/
def failedMetric : PerformanceMetric :=
  { request_id := "r", start_time := 0, success := false }

/-- A partially filled in-flight metric (concrete instance). -/
def witnessMetric : PerformanceMetric :=
  { request_id := "r", start_time := 0 }

/-- A collector with one in-flight request (concrete instance). -/
def witnessCollector : CollectorState :=
  { metrics := [], active := [("r", witnessMetric)], request_counter := 1 }

/-- `witnessCollector` after ending request `"r"` at time 5 with no
usage and no error (concrete instance). -/
def witnessCollectorEnded : CollectorState :=
  { metrics := [{ witnessMetric with end_time := some 5, latency := some 5 }]
    active := [], request_counter := 1 }

/-- A successful finalized metric with token usage (concrete instance). -/
def okMetric : PerformanceMetric :=
  { request_id := "a", start_time := 0, end_time := some 10, latency := some 10
    input_tokens := some 3, output_tokens := some 5, total_tokens := some 8
    model := some "gpt-4", cost := some (1/2) }

/-- A successful finalized metric without token usage (concrete instance). -/
def okMetricNoUsage : PerformanceMetric :=
  { request_id := "b", start_time := 0, end_time := some 2, latency := some 2 }

/-- The golden test case with empty texts, threshold 0, length bounds
`[0, 5]` and no required terms (concrete instance). -/
def emptyTestCase : GoldenTestCase :=
  { id := "t0", category := "cat", difficulty := "easy", transcript := ""
    golden_summary := ""
    thresholds := { min_semantic_similarity := 0, min_length_words := 0
                    max_length_words := 5, required_terms := [] } }

/-- The evaluation result of the empty summary against `emptyTestCase`
(concrete instance). -/
noncomputable def emptyEvalResult : EvaluationResult :=
  { passed := true, similarity := composite_similarity "" "", bleu := bleu_score "" ""
    length_check := { passed := true, word_count := 0 }
    required_terms := { passed := true, coverage := 1, missing := [] }
    failures := [] }

/-! ## Theorems -/

/-- C3: `generate_report` raises `ValueError('No metrics recorded')` when
there are zero finalized metrics, and the distinct
`ValueError('No successful requests with latency data to generate report')`
when metrics exist but no successful metric carries latency data; in
neither case does it return a (zero-filled or any other) report. -/
theorem generate_report_insufficient_data (metrics : List PerformanceMetric) :
    (metrics = [] → generate_report metrics = .error "No metrics recorded") ∧
    (metrics ≠ [] →
      (metrics.filter fun m => m.success).filterMap (fun m => m.latency) = [] →
      generate_report metrics =
        .error "No successful requests with latency data to generate report") ∧
    ("No metrics recorded" : String) ≠
      "No successful requests with latency data to generate report" := by
  refine ⟨?_, ?_, by decide⟩
  · rintro rfl
    rfl
  · intro hne hlat
    have hlen : metrics.length ≠ 0 := by
      simpa [List.length_eq_zero] using hne
    simp [generate_report, hlen, hlat]

/-- Witness for C3: the empty metric list hits the first error and a
single failed metric (no successful latency data) hits the second. -/
theorem generate_report_insufficient_data_witness :
    (([] : List PerformanceMetric) = [] ∧
      generate_report [] = .error "No metrics recorded")
    ∧ ([failedMetric] ≠ ([] : List PerformanceMetric)
      ∧ ([failedMetric].filter fun m => m.success).filterMap (fun m => m.latency) = []
      ∧ generate_report [failedMetric] =
          .error "No successful requests with latency data to generate report") :=
  ⟨⟨rfl, (generate_report_insufficient_data []).1 rfl⟩,
    ⟨by decide, by decide,
      (generate_report_insufficient_data [failedMetric]).2.1 (by decide) (by decide)⟩⟩

/-- The in-flight map after `del self._active_requests[request_id]` no
longer resolves `request_id`. -/
theorem find?_filter_ne_none (l : List (String × PerformanceMetric)) (rid : String) :
    (l.filter fun p => !(p.1 == rid)).find? (fun p => p.1 == rid) = none := by
  induction l with
  | nil => rfl
  | cons a t ih =>
    by_cases h : a.1 == rid
    · simp [List.filter_cons, h, ih]
    · simp [List.filter_cons, h, List.find?_cons, ih]

/-- C4: ending a request id that is not in the in-flight map raises
`ValueError`, and a successful end removes the id from the in-flight
map, so ending the same handle a second time raises rather than
overwriting the finalized metric. -/
theorem end_request_at_most_once (s : CollectorState) (rid : String)
    (usage : Option TokenUsage) (error : Option String) (now : ℚ) :
    ((s.active.find? fun p => p.1 == rid) = none →
      end_request s rid usage error now = .error ("Request " ++ rid ++ " not found")) ∧
    ∀ s', end_request s rid usage error now = .ok s' →
      ((s'.active.find? fun p => p.1 == rid) = none ∧
        ∀ usage2 error2 now2,
          end_request s' rid usage2 error2 now2 =
            .error ("Request " ++ rid ++ " not found")) := by
  constructor
  · intro h
    simp [end_request, h]
  · intro s' h
    unfold end_request at h
    cases hf : s.active.find? fun p => p.1 == rid with
    | none =>
      rw [hf] at h
      exact absurd h (by simp)
    | some entry =>
      rw [hf] at h
      have hact : s'.active = s.active.filter fun p => !(p.1 == rid) := by
        cases h
        rfl
      have hnone : (s'.active.find? fun p => p.1 == rid) = none := by
        rw [hact]
        exact find?_filter_ne_none s.active rid
      exact ⟨hnone, fun usage2 error2 now2 => by simp [end_request, hnone]⟩

/-- Witness for C4: a stale id on the empty collector fails, and a
double end of the one in-flight request of `witnessCollector` fails. -/
theorem end_request_at_most_once_witness :
    ((emptyCollector.active.find? fun p => p.1 == "x") = none
      ∧ end_request emptyCollector "x" none none 0 = .error ("Request " ++ "x" ++ " not found"))
    ∧ (end_request witnessCollector "r" none none 5 = .ok witnessCollectorEnded
      ∧ (witnessCollectorEnded.active.find? fun p => p.1 == "r") = none
      ∧ end_request witnessCollectorEnded "r" none none 6 =
          .error ("Request " ++ "r" ++ " not found")) :=
  have h : end_request witnessCollector "r" none none 5 = .ok witnessCollectorEnded := by
    simp [end_request, witnessCollector, witnessMetric, witnessCollectorEnded]
  have h2 := (end_request_at_most_once witnessCollector "r" none none 5).2 witnessCollectorEnded h
  ⟨⟨rfl, (end_request_at_most_once emptyCollector "x" none none 0).1 rfl⟩,
    ⟨h, h2.1, h2.2 none none 6⟩⟩

/-- C5: on a non-empty sorted sample the percentile helper returns the
element at index `⌈p/100·n⌉ - 1` clamped into `[0, n-1]` (the clamped
index is always in bounds, so `getD` never falls back to its default);
in particular p95 of the 10-value sample `[1..10]` is the element at
index 9, namely 10. -/
theorem percentile_nearest_rank (l : List ℚ) (p : ℚ) (h : l ≠ [])
    (hp0 : 0 ≤ p) (hp1 : p ≤ 100) :
    ((max 0 (min (⌈p / 100 * (l.length : ℚ)⌉ - 1) ((l.length : ℤ) - 1))).toNat < l.length
      ∧ percentile l p =
        l.getD (max 0 (min (⌈p / 100 * (l.length : ℚ)⌉ - 1) ((l.length : ℤ) - 1))).toNat 0)
    ∧ percentile [1, 2, 3, 4, 5, 6, 7, 8, 9, 10] 95 = 10 := by
  have hlen : l.length ≠ 0 := by
    simpa [List.length_eq_zero] using h
  refine ⟨⟨?_, ?_⟩, ?_⟩
  · have hA := min_le_right (⌈p / 100 * (l.length : ℚ)⌉ - 1) ((l.length : ℤ) - 1)
    omega
  · simp [percentile, hlen]
  · have hc : (⌈(19 : ℚ) / 2⌉ : ℤ) = 10 := by
      rw [Int.ceil_eq_iff] <;> norm_num
    norm_num [percentile, hc]
    rfl

/-- Witness for C5 at the two-element sample `[3, 5]` with p = 50. -/
theorem percentile_nearest_rank_witness :
    (([3, 5] : List ℚ) ≠ [] ∧ (0 : ℚ) ≤ 50 ∧ (50 : ℚ) ≤ 100)
    ∧ percentile [1, 2, 3, 4, 5, 6, 7, 8, 9, 10] 95 = 10 :=
  ⟨⟨by simp, by decide, by decide⟩,
    (percentile_nearest_rank [3, 5] 50 (by simp) (by decide) (by decide)).2⟩

/-- C9: whenever both texts tokenize to non-empty token lists, Jaccard
similarity is bounded by the overlap coefficient (the union is at least
as large as the smaller set). -/
theorem jaccard_le_overlap (a b : String)
    (ha : tokenize a ≠ []) (hb : tokenize b ≠ []) :
    jaccard_similarity a b ≤ overlap_coefficient a b := by
  obtain ⟨x, hx⟩ := List.exists_mem_of_ne_nil _ ha
  obtain ⟨y, hy⟩ := List.exists_mem_of_ne_nil _ hb
  have h1 : (tokenize a).toFinset.Nonempty := ⟨x, List.mem_toFinset.2 hx⟩
  have h2 : (tokenize b).toFinset.Nonempty := ⟨y, List.mem_toFinset.2 hy⟩
  have hc1 : 0 < (tokenize a).toFinset.card := Finset.card_pos.2 h1
  have hc2 : 0 < (tokenize b).toFinset.card := Finset.card_pos.2 h2
  have hmin : 0 < min (tokenize a).toFinset.card (tokenize b).toFinset.card :=
    lt_min hc1 hc2
  have hunion : 0 < ((tokenize a).toFinset ∪ (tokenize b).toFinset).card :=
    lt_of_lt_of_le hc1 (Finset.card_le_card Finset.subset_union_left)
  have hmle : min (tokenize a).toFinset.card (tokenize b).toFinset.card ≤
      ((tokenize a).toFinset ∪ (tokenize b).toFinset).card :=
    le_trans (min_le_left _ _) (Finset.card_le_card Finset.subset_union_left)
  simp only [jaccard_similarity, overlap_coefficient]
  rw [if_neg (by omega), if_neg (by omega)]
  have hq1 : (0 : ℚ) < (min (tokenize a).toFinset.card (tokenize b).toFinset.card : ℚ) := by
    exact_mod_cast hmin
  have hq2 : (min (tokenize a).toFinset.card (tokenize b).toFinset.card : ℚ) ≤
      (((tokenize a).toFinset ∪ (tokenize b).toFinset).card : ℚ) := by
    exact_mod_cast hmle
  gcongr

/-- Witness for C9 on the token-overlapping texts `"a"` and `"a b"`. -/
theorem jaccard_le_overlap_witness :
    (tokenize "a" ≠ [] ∧ tokenize "a b" ≠ [])
    ∧ jaccard_similarity "a" "a b" ≤ overlap_coefficient "a" "a b" :=
  ⟨⟨by decide, by decide⟩, jaccard_le_overlap "a" "a b" (by decide) (by decide)⟩

/-- ASCII lower-casing never produces an upper-case letter. -/
theorem isUpper_toLower (c : Char) : (Char.toLower c).isUpper = false := by
  simp only [Char.toLower]
  by_cases h : c.toNat ≥ 65 ∧ c.toNat ≤ 90
  · rw [if_pos h]
    obtain ⟨h1, h2⟩ := h
    generalize hn : c.toNat = n at h1 h2
    interval_cases n <;> decide
  · rw [if_neg h]
    simp only [Char.isUpper, Bool.and_eq_false_iff, decide_eq_false_iff_not]
    rw [Decidable.not_and_iff_or_not] at h
    rcases h with h | h
    · exact Or.inl fun hge => h (UInt32.le_toNat_of_le (by decide) hge)
    · exact Or.inr fun hle => h (UInt32.toNat_le_of_le (by decide) hle)

/-- Every character of every piece produced by `pySplit` comes from the
input (or the accumulator) and is not whitespace. -/
theorem mem_pySplit_chars : ∀ (cs acc tok : List Char),
    (∀ c ∈ acc, isSpaceChar c = false) → tok ∈ pySplit cs acc →
    ∀ c ∈ tok, (c ∈ cs ∨ c ∈ acc) ∧ isSpaceChar c = false := by
  intro cs
  induction cs with
  | nil =>
    intro acc tok hacc htok c hc
    by_cases ha : acc = []
    · subst ha
      simp [pySplit] at htok
    · simp only [pySplit, if_neg ha, List.mem_singleton] at htok
      subst htok
      have hm := List.mem_reverse.1 hc
      exact ⟨Or.inr hm, hacc c hm⟩
  | cons x rest ih =>
    intro acc tok hacc htok c hc
    by_cases hx : isSpaceChar x
    · by_cases ha : acc = []
      · subst ha
        simp only [pySplit, if_pos hx, if_pos rfl] at htok
        have h := ih [] tok (by simp) htok c hc
        rcases h with ⟨h1 | h1, h2⟩
        · exact ⟨Or.inl (List.mem_cons_of_mem _ h1), h2⟩
        · exact absurd h1 (List.not_mem_nil c)
      · simp only [pySplit, if_pos hx, if_neg ha, List.mem_cons] at htok
        rcases htok with h | h
        · subst h
          have hm := List.mem_reverse.1 hc
          exact ⟨Or.inr hm, hacc c hm⟩
        · have h' := ih [] tok (by simp) h c hc
          rcases h' with ⟨h1 | h1, h2⟩
          · exact ⟨Or.inl (List.mem_cons_of_mem _ h1), h2⟩
          · exact absurd h1 (List.not_mem_nil c)
    · simp only [pySplit, if_neg hx] at htok
      have hacc' : ∀ d ∈ x :: acc, isSpaceChar d = false := by
        intro d hd
        rcases List.mem_cons.1 hd with rfl | hd
        · exact Bool.not_eq_true _ ▸ (by simpa using hx)
        · exact hacc d hd
      have h := ih (x :: acc) tok hacc' htok c hc
      rcases h with ⟨h1 | h1, h2⟩
      · exact ⟨Or.inl (List.mem_cons_of_mem _ h1), h2⟩
      · rcases List.mem_cons.1 h1 with rfl | h1
        · exact ⟨Or.inl (List.mem_cons_self _ _), h2⟩
        · exact ⟨Or.inr h1, h2⟩

/-- Structure of tokenizer output: every token is non-empty and each of
its characters is a word character (alphanumeric or underscore), not an
upper-case letter, and not a space. -/
theorem tokenize_chars {text : String} {tok : List Char} (htok : tok ∈ tokenize text) :
    tok ≠ [] ∧ ∀ c ∈ tok, isWordChar c = true ∧ c.isUpper = false ∧ c ≠ ' ' := by
  simp only [tokenize] at htok
  rw [List.mem_filter] at htok
  obtain ⟨hmem, hne⟩ := htok
  refine ⟨by simpa [List.isEmpty_iff] using hne, ?_⟩
  intro c hc
  obtain ⟨hin, hns⟩ := mem_pySplit_chars _ [] tok (by simp) hmem c hc
  rcases hin with hin | hin
  · simp only [stripPunct, List.mem_map] at hin
    obtain ⟨c0, hc0, hceq⟩ := hin
    by_cases hw : isWordChar c0 || isSpaceChar c0
    · rw [if_pos hw] at hceq
      subst hceq
      have hword : isWordChar c0 = true := by
        rw [Bool.or_eq_true] at hw
        rcases hw with h | h
        · exact h
        · rw [h] at hns
          cases hns
      obtain ⟨c1, -, rfl⟩ := hc0
      refine ⟨hword, isUpper_toLower c1, ?_⟩
      intro habs
      rw [habs] at hns
      simp [isSpaceChar] at hns
    · rw [if_neg hw] at hceq
      subst hceq
      simp [isSpaceChar] at hns
  · exact absurd hin (List.not_mem_nil c)

/-- C6 counterexample: the claim says every returned token consists
solely of lowercase alphanumeric characters, but `_tokenize` keeps
regex-`\w` characters, so the token `"_"` of `tokenize "_"` contains the
non-alphanumeric underscore. -/
theorem tokenize_underscore_counterexample :
    ['_'] ∈ tokenize "_" ∧ '_' ∈ (['_'] : List Char) ∧ '_'.isAlphanum = false := by
  decide

/-- C6 (amended): the tokenizer lower-cases the text, strips every
character that is not a word character (alphanumeric or underscore) or
whitespace, splits on whitespace and drops empty strings, so every
returned token is non-empty and consists solely of word characters none
of which is an upper-case letter. -/
theorem tokenize_token_chars (text : String) (tok : List Char) (c : Char)
    (htok : tok ∈ tokenize text) (hc : c ∈ tok) :
    tok ≠ [] ∧ isWordChar c = true ∧ c.isUpper = false := by
  obtain ⟨hne, hall⟩ := tokenize_chars htok
  obtain ⟨h1, h2, _⟩ := hall c hc
  exact ⟨hne, h1, h2⟩

/-- Witness for C6 (amended) on the mixed-case input `"Ab_1 c!"`. -/
theorem tokenize_token_chars_witness :
    (['a', 'b', '_', '1'] ∈ tokenize "Ab_1 c!" ∧ '_' ∈ (['a', 'b', '_', '1'] : List Char))
    ∧ (['a', 'b', '_', '1'] ≠ ([] : List Char)
       ∧ isWordChar '_' = true ∧ '_'.isUpper = false) :=
  ⟨⟨by decide, by decide⟩,
    tokenize_token_chars "Ab_1 c!" ['a', 'b', '_', '1'] '_' (by decide) (by decide)⟩

/-- C8 counterexample: with similarity data present in both halves but a
first-half mean of exactly 0, `_calculate_trend` returns `"stable"`
although the claim's classification rule (second-half mean exceeds the
first by more than 0.05) would say `"improving"`. -/
theorem calculate_trend_zero_mean_counterexample :
    calculate_trend
      [simRun 0, simRun 0, simRun (1/2), simRun (1/2), simRun (1/2)] = "stable"
    ∧ calculate_trend_claim
      [simRun 0, simRun 0, simRun (1/2), simRun (1/2), simRun (1/2)] = "improving" := by
  constructor
  · norm_num [calculate_trend, simRun, aggMean, List.filterMap_cons, List.filterMap_nil,
      List.take_succ_cons, List.drop_succ_cons, List.sum_cons, List.sum_nil]
  · norm_num [calculate_trend_claim, simRun, List.filterMap_cons, List.filterMap_nil,
      List.take_succ_cons, List.drop_succ_cons, List.sum_cons, List.sum_nil]
    rintro (h | h) <;> simp at h

/-- C8 (amended): trend classification is `"stable"` below 5 runs,
otherwise the window is split chronologically at the midpoint (the
second half receiving the larger part on odd counts), `"improving"` /
`"degrading"` when the second half's mean similarity differs from the
first half's by more than ±0.05, and `"stable"` otherwise — where a
zero mean similarity on either side (in particular a half with no
similarity data at all) also classifies as `"stable"`. -/
theorem calculate_trend_eq_spec (runs : List TestRunResult) :
    calculate_trend runs = calculate_trend_spec runs
    ∧ (runs.splitAt (runs.length / 2)).1 ++ (runs.splitAt (runs.length / 2)).2 = runs
    ∧ (runs.splitAt (runs.length / 2)).1.length ≤ (runs.splitAt (runs.length / 2)).2.length := by
  refine ⟨?_, ?_, ?_⟩
  · simp only [calculate_trend, calculate_trend_spec, List.splitAt_eq]
  · simp [List.take_append_drop]
  · simp only [List.splitAt_eq, List.length_take, List.length_drop]
    omega

/-- C1 counterexample: on the four-run history `[1, 1, 1, 0.88]` (with
default thresholds) the code baselines over the last 10 runs of the
full history — which includes the latest run, giving baseline mean
0.97 and a relative drop of ≈9.3%, hence no alert — whereas the
claim's prior-window baseline (the three runs preceding the latest,
mean 1.0, a 12% drop) produces a similarity alert. -/
theorem check_for_regressions_window_counterexample :
    check_for_regressions defaultThresholds
      [simRun 1, simRun 1, simRun 1, simRun (22/25)] = []
    ∧ check_for_regressions_claim defaultThresholds
      [simRun 1, simRun 1, simRun 1, simRun (22/25)] ≠ [] := by
  constructor
  · norm_num [check_for_regressions, calculate_baseline, get_recent_runs, aggMean,
      calculate_trend, regressionAlerts, defaultThresholds, simRun, DEFAULT_BASELINE_RUNS,
      List.filterMap_cons, List.filterMap_nil, List.sum_cons, List.sum_nil,
      List.map_cons, List.map_nil]
  · norm_num [check_for_regressions_claim, calculate_baseline, get_recent_runs, aggMean,
      calculate_trend, regressionAlerts, defaultThresholds, simRun, DEFAULT_BASELINE_RUNS,
      List.filterMap_cons, List.filterMap_nil, List.sum_cons, List.sum_nil,
      List.map_cons, List.map_nil]

/-- C1 (amended): `check_for_regressions` returns no alerts when the
history holds fewer than `min_test_runs + 1` runs; otherwise it
compares the single latest run (`history[-1]`) against the baseline
computed over the default window of the 10 most recent runs of the full
history — a window that includes the latest run itself. -/
theorem check_for_regressions_spec (th : AlertThresholds) (history : List TestRunResult) :
    (history.length < th.min_test_runs + 1 → check_for_regressions th history = []) ∧
    (∀ latest, history.getLast? = some latest →
      th.min_test_runs + 1 ≤ history.length →
        (check_for_regressions th history =
          match calculate_baseline th history DEFAULT_BASELINE_RUNS with
          | none => []
          | some baseline => regressionAlerts th latest baseline)
        ∧ get_recent_runs history DEFAULT_BASELINE_RUNS
            = history.drop (history.length - DEFAULT_BASELINE_RUNS)
        ∧ latest ∈ get_recent_runs history DEFAULT_BASELINE_RUNS) := by
  constructor
  · intro h
    simp [check_for_regressions, h]
  · intro latest hlast hlen
    have hlen0 : 1 ≤ history.length := by omega
    have hwindow : get_recent_runs history DEFAULT_BASELINE_RUNS
        = history.drop (history.length - DEFAULT_BASELINE_RUNS) := by
      simp only [get_recent_runs, DEFAULT_BASELINE_RUNS]
      by_cases hge : history.length ≥ 10
      · simp [hge]
      · have h10 : history.length - 10 = 0 := by omega
        simp [hge, h10]
    refine ⟨?_, hwindow, ?_⟩
    · have hnot : ¬ history.length < th.min_test_runs + 1 := by omega
      simp only [check_for_regressions, if_neg hnot, hlast]
    · rw [hwindow]
      have hd : history.drop (history.length - DEFAULT_BASELINE_RUNS) ≠ [] := by
        intro h0
        have := List.length_drop (history.length - DEFAULT_BASELINE_RUNS) history
        rw [h0] at this
        simp only [List.length_nil] at this
        simp only [DEFAULT_BASELINE_RUNS] at this
        omega
      cases hdl : (history.drop (history.length - DEFAULT_BASELINE_RUNS)).getLast? with
      | none =>
        rw [List.getLast?_eq_none_iff] at hdl
        exact absurd hdl hd
      | some y =>
        have hy : history.getLast? = some y := by
          conv_lhs =>
            rw [← List.take_append_drop (history.length - DEFAULT_BASELINE_RUNS) history]
          rw [List.getLast?_append, hdl]
          rfl
        rw [hlast] at hy
        cases hy
        exact List.mem_of_getLast?_eq_some hdl

/-- Witness for C1 (amended): a three-run history is below the
`min_test_runs + 1 = 4` threshold and yields no alerts; on a four-run
history the latest run lies inside the 10-run baseline window. -/
theorem check_for_regressions_spec_witness :
    (([simRun 1, simRun 1, simRun 1] : List TestRunResult).length <
        defaultThresholds.min_test_runs + 1
      ∧ check_for_regressions defaultThresholds [simRun 1, simRun 1, simRun 1] = [])
    ∧ (([simRun 1, simRun 1, simRun 1, simRun (1/2)] : List TestRunResult).getLast?
          = some (simRun (1/2))
      ∧ simRun (1/2) ∈ get_recent_runs
          [simRun 1, simRun 1, simRun 1, simRun (1/2)] DEFAULT_BASELINE_RUNS) :=
  ⟨⟨by decide,
    (check_for_regressions_spec defaultThresholds [simRun 1, simRun 1, simRun 1]).1 (by decide)⟩,
   ⟨rfl,
    ((check_for_regressions_spec defaultThresholds
        [simRun 1, simRun 1, simRun 1, simRun (1/2)]).2 (simRun (1/2)) rfl (by decide)).2.2⟩⟩

/-- C10: in a successfully generated performance report, the token and
cost means are averaged over all successful requests: a successful
request with no recorded usage contributes `input_tokens or 0`,
`output_tokens or 0` and `cost or 0.0` to the numerator while still
counting in the denominator (the number of successful requests). -/
theorem report_means_over_successful (metrics : List PerformanceMetric)
    (hne : metrics ≠ [])
    (hlat : (metrics.filter fun m => m.success).filterMap (fun m => m.latency) ≠ []) :
    (metrics.filter fun m => m.success) ≠ []
    ∧ (generate_report metrics).map (fun r => r.mean_input_tokens) =
        .ok (((metrics.filter fun m => m.success).map
            fun m => ((m.input_tokens.getD 0 : ℤ) : ℚ)).sum
          / (((metrics.filter fun m => m.success).length : ℚ)))
    ∧ (generate_report metrics).map (fun r => r.mean_output_tokens) =
        .ok (((metrics.filter fun m => m.success).map
            fun m => ((m.output_tokens.getD 0 : ℤ) : ℚ)).sum
          / (((metrics.filter fun m => m.success).length : ℚ)))
    ∧ (generate_report metrics).map (fun r => r.mean_cost) =
        .ok (((metrics.filter fun m => m.success).map fun m => m.cost.getD 0).sum
          / (((metrics.filter fun m => m.success).length : ℚ))) := by
  have hsucc : (metrics.filter fun m => m.success) ≠ [] := by
    intro h0
    rw [h0] at hlat
    exact hlat rfl
  have hslen : (metrics.filter fun m => m.success).length ≠ 0 := by
    simpa [List.length_eq_zero] using hsucc
  have hlen : metrics.length ≠ 0 := by
    simpa [List.length_eq_zero] using hne
  have hsorted : (List.insertionSort (· ≤ ·)
      ((metrics.filter fun m => m.success).filterMap fun m => m.latency)).length ≠ 0 := by
    rw [(List.perm_insertionSort _ _).length_eq]
    simpa [List.length_eq_zero] using hlat
  simp only [generate_report]
  rw [if_neg hlen, if_neg hsorted]
  refine ⟨hsucc, ?_, ?_, ?_⟩
  · simp only [Except.map]
    rw [List.map_map, pcMean, List.length_map, if_neg hslen]
    rfl
  · simp only [Except.map]
    rw [List.map_map, pcMean, List.length_map, if_neg hslen]
    rfl
  · simp only [Except.map]
    rw [pcMean, List.length_map, if_neg hslen]

/-- Witness for C10: two successful metrics, one with usage
`(3, 5, cost 1/2)` and one with none (contributing zeros but counted in
the denominator). -/
theorem report_means_over_successful_witness :
    ([okMetric, okMetricNoUsage] ≠ ([] : List PerformanceMetric)
      ∧ ([okMetric, okMetricNoUsage].filter fun m => m.success).filterMap
          (fun m => m.latency) ≠ [])
    ∧ ([okMetric, okMetricNoUsage].filter fun m => m.success) ≠ []
    ∧ (generate_report [okMetric, okMetricNoUsage]).map (fun r => r.mean_input_tokens) =
        .ok ((([okMetric, okMetricNoUsage].filter fun m => m.success).map
            fun m => ((m.input_tokens.getD 0 : ℤ) : ℚ)).sum
          / ((([okMetric, okMetricNoUsage].filter fun m => m.success).length : ℚ))) :=
  have h := report_means_over_successful [okMetric, okMetricNoUsage] (by decide) (by decide)
  ⟨⟨by decide, by decide⟩, h.1, h.2.1⟩

/-- C2: whenever `evaluate` returns a result, `passed` holds iff the
failure list is empty; `passed` is exactly the conjunction of the
similarity-threshold, length-bounds and required-terms checks (the BLEU
score appears nowhere in that characterization); and the failure list
is the concatenation of the three possible messages in the fixed order
similarity → length → required terms. -/
theorem evaluate_passed_iff (summary : String) (test_case : GoldenTestCase)
    (r : EvaluationResult) (h : evaluate summary test_case = .ok r) :
    (r.passed = true ↔ r.failures = []) ∧
    (r.passed = true ↔
      (¬ composite_similarity summary test_case.golden_summary
          < (test_case.thresholds.min_semantic_similarity : ℝ)
        ∧ r.length_check.passed = true ∧ r.required_terms.passed = true)) ∧
    r.failures =
      (if composite_similarity summary test_case.golden_summary
          < (test_case.thresholds.min_semantic_similarity : ℝ)
        then [FailureMsg.similarityBelow
          (composite_similarity summary test_case.golden_summary)
          test_case.thresholds.min_semantic_similarity] else [])
      ++ (if r.length_check.passed = false
          then [FailureMsg.lengthOutside r.length_check.word_count
            test_case.thresholds.min_length_words test_case.thresholds.max_length_words]
          else [])
      ++ (if r.required_terms.passed = false
          then [FailureMsg.missingTerms r.required_terms.missing] else []) := by
  simp only [evaluate] at h
  cases hvl : validate_length summary test_case.thresholds.min_length_words
      test_case.thresholds.max_length_words with
  | error e =>
    rw [hvl] at h
    exact absurd h (by simp)
  | ok lc =>
    rw [hvl] at h
    by_cases hA : composite_similarity summary test_case.golden_summary
        < (test_case.thresholds.min_semantic_similarity : ℝ) <;>
    by_cases hB : lc.passed = false <;>
    by_cases hC : (contains_required_terms summary
        test_case.thresholds.required_terms).passed = false <;>
    · simp only [hA, hB, hC, if_true, if_false, iff_true, iff_false, eq_self_iff_true,
        not_true, not_false_iff, List.nil_append, List.append_nil,
        Except.ok.injEq] at h
      subst h
      simp only [hA, hB, hC, if_true, if_false, List.nil_append, List.append_nil]
      refine ⟨by simp, ?_, by simp⟩
      simp [hA, hB, hC]
      try tauto

/-- Witness for C2: the empty summary against `emptyTestCase` (threshold
0, bounds `[0, 5]`, no required terms) evaluates to a passing result
with an empty failure list. -/
theorem evaluate_passed_iff_witness :
    evaluate "" emptyTestCase = .ok emptyEvalResult
    ∧ (emptyEvalResult.passed = true ↔ emptyEvalResult.failures = []) :=
  have ht : tokenize "" = [] := rfl
  have hjac : jaccard_similarity "" "" = 0 := by
    simp [jaccard_similarity, ht]
  have hover : overlap_coefficient "" "" = 0 := by
    simp [overlap_coefficient, ht]
  have hcos : cosine_similarity "" "" = 0 := by
    simp [cosine_similarity, ht]
  have hcomp : composite_similarity "" "" = 0 := by
    simp only [composite_similarity]
    rw [hcos, hjac, hover]
    norm_num
  have hlt : ¬ composite_similarity "" "" < ((0 : ℚ) : ℝ) := by
    rw [hcomp]
    norm_num
  have h : evaluate "" emptyTestCase = .ok emptyEvalResult := by
    have hvl : validate_length "" (0 : ℤ) 5 = .ok { passed := true, word_count := 0 } := rfl
    have hrt : contains_required_terms "" [] =
        { passed := true, coverage := 1, missing := [] } := rfl
    simp only [evaluate, emptyTestCase, hvl, hrt, hlt, if_false, emptyEvalResult]
    simp
  ⟨h, (evaluate_passed_iff "" emptyTestCase emptyEvalResult h).1⟩

/-- Unfolding of `joinKey` on a cons cell. -/
theorem joinKey_cons (t : List Char) (rest : List (List Char)) :
    joinKey (t :: rest) = t ++ (if rest = [] then [] else ' ' :: joinKey rest) := by
  cases rest with
  | nil => simp [joinKey]
  | cons a r => simp [joinKey]

/-- Cancellation for space-free prefixes followed by a space-headed (or
empty) remainder: the first space determines the split point. -/
theorem append_sep_inj {x : List Char} : ∀ {y s t : List Char},
    (∀ c ∈ x, c ≠ ' ') → (∀ c ∈ y, c ≠ ' ') →
    (s = [] ∨ ∃ u, s = ' ' :: u) → (t = [] ∨ ∃ u, t = ' ' :: u) →
    x ++ s = y ++ t → x = y ∧ s = t := by
  induction x with
  | nil =>
    intro y s t _ hy hs ht h
    cases y with
    | nil => exact ⟨rfl, h⟩
    | cons b y' =>
      exfalso
      rcases hs with rfl | ⟨u, rfl⟩
      · simp at h
      · rw [List.nil_append, List.cons_append] at h
        have hb : ' ' = b := by
          injection h
        exact hy b (List.mem_cons_self _ _) hb.symm
  | cons a x' ih =>
    intro y s t hx hy hs ht h
    cases y with
    | nil =>
      exfalso
      rcases ht with rfl | ⟨u, rfl⟩
      · simp at h
      · rw [List.nil_append, List.cons_append] at h
        have ha : a = ' ' := by
          injection h
        exact hx a (List.mem_cons_self _ _) ha
    | cons b y' =>
      rw [List.cons_append, List.cons_append] at h
      have hab : a = b := by
        injection h
      have htail : x' ++ s = y' ++ t := by
        injection h
      subst hab
      obtain ⟨h1, h2⟩ := ih (fun c hc => hx c (List.mem_cons_of_mem _ hc))
        (fun c hc => hy c (List.mem_cons_of_mem _ hc)) hs ht htail
      exact ⟨by rw [h1], h2⟩

/-- `' '.join` is injective on lists of non-empty, space-free tokens. -/
theorem joinKey_inj : ∀ {g1 g2 : List (List Char)},
    (∀ t ∈ g1, t ≠ [] ∧ ∀ c ∈ t, c ≠ ' ') →
    (∀ t ∈ g2, t ≠ [] ∧ ∀ c ∈ t, c ≠ ' ') →
    joinKey g1 = joinKey g2 → g1 = g2 := by
  intro g1
  induction g1 with
  | nil =>
    intro g2 _ h2 h
    cases g2 with
    | nil => rfl
    | cons t g2' =>
      exfalso
      rw [joinKey_cons] at h
      have hne : t ≠ [] := (h2 t (List.mem_cons_self _ _)).1
      cases ht : t with
      | nil => exact hne ht
      | cons c t' =>
        rw [ht] at h
        simp [joinKey] at h
  | cons t g1' ih =>
    intro g2 h1 h2 h
    cases g2 with
    | nil =>
      exfalso
      rw [joinKey_cons] at h
      have hne : t ≠ [] := (h1 t (List.mem_cons_self _ _)).1
      cases ht : t with
      | nil => exact hne ht
      | cons c t' =>
        rw [ht] at h
        simp [joinKey] at h
    | cons u g2' =>
      rw [joinKey_cons, joinKey_cons] at h
      have hshape1 : (if g1' = [] then ([] : List Char) else ' ' :: joinKey g1') = []
          ∨ ∃ v, (if g1' = [] then ([] : List Char) else ' ' :: joinKey g1') = ' ' :: v := by
        by_cases hg : g1' = []
        · exact Or.inl (by simp [hg])
        · exact Or.inr ⟨joinKey g1', by simp [hg]⟩
      have hshape2 : (if g2' = [] then ([] : List Char) else ' ' :: joinKey g2') = []
          ∨ ∃ v, (if g2' = [] then ([] : List Char) else ' ' :: joinKey g2') = ' ' :: v := by
        by_cases hg : g2' = []
        · exact Or.inl (by simp [hg])
        · exact Or.inr ⟨joinKey g2', by simp [hg]⟩
      obtain ⟨hhead, htail⟩ := append_sep_inj (h1 t (List.mem_cons_self _ _)).2
        (h2 u (List.mem_cons_self _ _)).2 hshape1 hshape2 h
      subst hhead
      by_cases hg1 : g1' = [] <;> by_cases hg2 : g2' = []
      · rw [hg1, hg2]
      · rw [if_pos hg1, if_neg hg2] at htail
        cases htail
      · rw [if_neg hg1, if_pos hg2] at htail
        cases htail
      · rw [if_neg hg1, if_neg hg2] at htail
        have hj : joinKey g1' = joinKey g2' := by
          injection htail
        rw [ih (fun x hx => h1 x (List.mem_cons_of_mem _ hx))
          (fun x hx => h2 x (List.mem_cons_of_mem _ hx)) hj]

/-- Every n-gram drawn from tokenizer output consists of non-empty,
space-free tokens. -/
theorem ngram_tokens_good {text : String} {n : ℕ} {g : List (List Char)}
    (hg : g ∈ get_ngrams (tokenize text) n) :
    ∀ t ∈ g, t ≠ [] ∧ ∀ c ∈ t, c ≠ ' ' := by
  intro t ht
  simp only [get_ngrams, List.mem_map] at hg
  obtain ⟨i, -, rfl⟩ := hg
  have htok : t ∈ tokenize text :=
    List.drop_subset _ _ (List.take_subset _ _ ht)
  obtain ⟨hne, hall⟩ := tokenize_chars htok
  exact ⟨hne, fun c hc => (hall c hc).2.2⟩

/-- Splitting a finite sum at one (possibly absent) index whose term
vanishes when absent. -/
theorem sum_eq_head_add_erase {α : Type} [DecidableEq α] (S : Finset α) (a : α)
    (f : α → ℕ) (h : a ∉ S → f a = 0) :
    ∑ k in S, f k = f a + ∑ k in S.erase a, f k := by
  by_cases hm : a ∈ S
  · exact (Finset.add_sum_erase S f hm).symm
  · rw [Finset.erase_eq_of_not_mem hm, h hm, Nat.zero_add]

/-- The fold of `_count_ngrams` evaluates to the occurrence count of the
key (plus whatever the accumulator already holds). -/
theorem count_ngrams_foldl (l : List (List (List Char))) (d0 : List Char → ℕ)
    (k : List Char) :
    (l.foldl (fun counts g => fun k' => if k' = joinKey g then counts k' + 1 else counts k')
      d0) k = d0 k + (l.map joinKey).count k := by
  induction l generalizing d0 with
  | nil => simp
  | cons g rest ih =>
    simp only [List.foldl_cons, List.map_cons]
    rw [ih]
    by_cases hk : k = joinKey g
    · simp only [if_pos hk, List.count_cons, hk]
      simp
      omega
    · have hk' : ¬ (joinKey g == k) = true := by
        simpa using Ne.symm hk
      simp only [if_neg hk, List.count_cons, if_neg hk']
      simp

/-- `_count_ngrams` counts key occurrences. -/
theorem count_ngrams_apply (l : List (List (List Char))) (k : List Char) :
    count_ngrams l k = (l.map joinKey).count k := by
  simp [count_ngrams, count_ngrams_foldl]

/-- Closed form of the consumption-accounting loop: every distinct key
contributes the minimum of its candidate occurrence count and its
remaining budget in the count map. -/
theorem matchCount_eq_sum_min (gs : List (List (List Char))) (d : List Char → ℕ) :
    matchCount gs d =
      ∑ k in (gs.map joinKey).toFinset, min ((gs.map joinKey).count k) (d k) := by
  induction gs generalizing d with
  | nil => simp [matchCount]
  | cons g rest ih =>
    simp only [List.map_cons, List.toFinset_cons]
    have hS : insert (joinKey g) (rest.map joinKey).toFinset
        = insert (joinKey g) ((rest.map joinKey).toFinset.erase (joinKey g)) := by
      by_cases hm : joinKey g ∈ (rest.map joinKey).toFinset
      · conv_rhs => rw [Finset.insert_erase hm]
        exact Finset.insert_eq_self.2 hm
      · rw [Finset.erase_eq_of_not_mem hm]
    rw [hS, Finset.sum_insert (Finset.not_mem_erase _ _)]
    have hcongr : ∀ d' : List Char → ℕ, (∀ k, k ≠ joinKey g → d' k = d k) →
        ∑ k in (rest.map joinKey).toFinset.erase (joinKey g),
          min (((joinKey g :: rest.map joinKey)).count k) (d k)
        = ∑ k in (rest.map joinKey).toFinset.erase (joinKey g),
          min ((rest.map joinKey).count k) (d' k) := by
      intro d' hd'
      apply Finset.sum_congr rfl
      intro k hkmem
      have hne : k ≠ joinKey g := Finset.ne_of_mem_erase hkmem
      have hne' : ¬ (joinKey g == k) = true := by
        simpa using Ne.symm hne
      rw [List.count_cons, if_neg hne', hd' k hne]
      simp
    by_cases hd : d (joinKey g) > 0
    · simp only [matchCount, if_pos hd]
      rw [ih]
      rw [sum_eq_head_add_erase ((rest.map joinKey).toFinset) (joinKey g)
        (fun k => min ((rest.map joinKey).count k)
          (if k = joinKey g then d k - 1 else d k))
        (by
          intro hnm
          have : (rest.map joinKey).count (joinKey g) = 0 := by
            rw [List.count_eq_zero]
            intro hmem
            exact hnm (List.mem_toFinset.2 hmem)
          simp [this])]
      rw [← hcongr (fun k => if k = joinKey g then d k - 1 else d k)
        (fun k hk => by simp [if_neg hk])]
      have hhead : min ((rest.map joinKey).count (joinKey g))
            (if joinKey g = joinKey g then d (joinKey g) - 1 else d (joinKey g)) + 1
          = min ((joinKey g :: rest.map joinKey).count (joinKey g)) (d (joinKey g)) := by
        rw [if_pos rfl, List.count_cons, if_pos (by simp)]
        omega
      omega
    · simp only [matchCount, if_neg hd]
      rw [ih]
      rw [sum_eq_head_add_erase ((rest.map joinKey).toFinset) (joinKey g)
        (fun k => min ((rest.map joinKey).count k) (d k))
        (by
          intro hnm
          have : (rest.map joinKey).count (joinKey g) = 0 := by
            rw [List.count_eq_zero]
            intro hmem
            exact hnm (List.mem_toFinset.2 hmem)
          simp [this])]
      rw [← hcongr d (fun _ _ => rfl)]
      have hd0 : d (joinKey g) = 0 := by omega
      have hhead : min ((joinKey g :: rest.map joinKey).count (joinKey g)) (d (joinKey g))
          = 0 := by
        rw [hd0]
        simp
      have hhead2 : min ((rest.map joinKey).count (joinKey g)) (d (joinKey g)) = 0 := by
        rw [hd0]
        simp
      omega

/-- Under `joinKey` injectivity (space-free non-empty tokens), key
counts agree with n-gram counts. -/
theorem count_map_joinKey {l : List (List (List Char))} {g : List (List Char)}
    (hl : ∀ x ∈ l, ∀ t ∈ x, t ≠ [] ∧ ∀ c ∈ t, c ≠ ' ')
    (hg : ∀ t ∈ g, t ≠ [] ∧ ∀ c ∈ t, c ≠ ' ') :
    (l.map joinKey).count (joinKey g) = l.count g := by
  induction l with
  | nil => rfl
  | cons a rest ih =>
    simp only [List.map_cons, List.count_cons]
    rw [ih (fun x hx => hl x (List.mem_cons_of_mem _ hx))]
    by_cases he : g = a
    · subst he
      simp
    · have hkey : ¬ joinKey g = joinKey a := fun hj =>
        he (joinKey_inj hg (hl a (List.mem_cons_self _ _)) hj)
      have h1 : ¬ (joinKey a == joinKey g) = true := by
        simpa using Ne.symm hkey
      have h2 : ¬ (a == g) = true := by
        simpa using Ne.symm he
      rw [if_neg h1, if_neg h2]

/-- C7: for n ≥ 1, `ngram_precision` returns 0.0 when the candidate
yields no n-grams (in particular for the empty candidate), and otherwise
returns matches divided by the total candidate n-gram count, where the
matches decompose per distinct n-gram as
`min(candidate occurrences, reference occurrences)` — so a repeated
candidate n-gram is matched at most as many times as it truly occurs in
the reference, each reference occurrence being consumed by at most one
match. -/
theorem ngram_precision_clipped (reference candidate : String) (n : ℕ) (hn : 1 ≤ n) :
    (get_ngrams (tokenize candidate) n = [] → ngram_precision reference candidate n = 0)
    ∧ ngram_precision reference "" n = 0
    ∧ (get_ngrams (tokenize candidate) n ≠ [] →
        ngram_precision reference candidate n =
          ((∑ g in (get_ngrams (tokenize candidate) n).toFinset,
              min ((get_ngrams (tokenize candidate) n).count g)
                ((get_ngrams (tokenize reference) n).count g) : ℕ) : ℚ)
            / ((get_ngrams (tokenize candidate) n).length : ℚ)) := by
  refine ⟨?_, ?_, ?_⟩
  · intro h
    simp [ngram_precision, h]
  · have ht : tokenize "" = [] := rfl
    have h0 : (0 : ℕ) + 1 - n = 0 := by omega
    have hz : get_ngrams (tokenize "") n = [] := by
      simp [get_ngrams, ht, h0]
    simp [ngram_precision, hz]
  · intro h
    have hlen : (get_ngrams (tokenize candidate) n).length ≠ 0 := by
      simpa [List.length_eq_zero] using h
    simp only [ngram_precision, if_neg hlen]
    have key : matchCount (get_ngrams (tokenize candidate) n)
        (count_ngrams (get_ngrams (tokenize reference) n))
        = ∑ g in (get_ngrams (tokenize candidate) n).toFinset,
            min ((get_ngrams (tokenize candidate) n).count g)
              ((get_ngrams (tokenize reference) n).count g) := by
      rw [matchCount_eq_sum_min]
      calc ∑ k in ((get_ngrams (tokenize candidate) n).map joinKey).toFinset,
            min (((get_ngrams (tokenize candidate) n).map joinKey).count k)
              (count_ngrams (get_ngrams (tokenize reference) n) k)
          = ∑ g in (get_ngrams (tokenize candidate) n).toFinset,
              min (((get_ngrams (tokenize candidate) n).map joinKey).count (joinKey g))
                (count_ngrams (get_ngrams (tokenize reference) n) (joinKey g)) := by
            have himg : ((get_ngrams (tokenize candidate) n).map joinKey).toFinset
                = (get_ngrams (tokenize candidate) n).toFinset.image joinKey := by
              ext k
              simp [List.mem_toFinset, List.mem_map, Finset.mem_image]
            rw [himg, Finset.sum_image (fun x hx y hy hxy =>
              joinKey_inj (ngram_tokens_good (List.mem_toFinset.1 hx))
                (ngram_tokens_good (List.mem_toFinset.1 hy)) hxy)]
        _ = ∑ g in (get_ngrams (tokenize candidate) n).toFinset,
              min ((get_ngrams (tokenize candidate) n).count g)
                ((get_ngrams (tokenize reference) n).count g) := by
            apply Finset.sum_congr rfl
            intro g hgmem
            have hgood : ∀ t ∈ g, t ≠ [] ∧ ∀ c ∈ t, c ≠ ' ' :=
              ngram_tokens_good (List.mem_toFinset.1 hgmem)
            rw [count_ngrams_apply]
            rw [count_map_joinKey (fun x hx => ngram_tokens_good hx) hgood]
            rw [count_map_joinKey (fun x hx => ngram_tokens_good hx) hgood]
    rw [key]

/-- Witness for C7 at n = 1 with the repeated candidate
`"the the the"` against the reference `"the cat"`. -/
theorem ngram_precision_clipped_witness :
    (1 : ℕ) ≤ 1
    ∧ ngram_precision "the cat" "" 1 = 0
    ∧ ngram_precision "the cat" "the the the" 1 =
        ((∑ g in (get_ngrams (tokenize "the the the") 1).toFinset,
            min ((get_ngrams (tokenize "the the the") 1).count g)
              ((get_ngrams (tokenize "the cat") 1).count g) : ℕ) : ℚ)
          / ((get_ngrams (tokenize "the the the") 1).length : ℚ) :=
  have h := ngram_precision_clipped "the cat" "the the the" 1 (by decide)
  ⟨by decide, h.2.1, h.2.2 (by decide)⟩

end LLMProbe
